import Mathlib

/-!
Verification development for the HealthPass client (HealthPass.py).

The Python file is shallowly embedded below.  Pure fragments become Lean
functions; Python exceptions become `Except PyError`; the lines printed to
stdout that matter to the properties (the per-field validation warning) are
carried explicitly in the result.  The eth_account / web3 signing primitives
are external libraries, so they are represented by an abstract backend
(`EthCrypto`) whose documented contract (address recovery inverts signing;
malformed signature input raises) is taken as an explicit hypothesis where a
theorem needs it; a small concrete backend (`toyCrypto`) realising that
contract is used for witnesses and counterexamples.
-/

namespace HealthPass

/-- Python exceptions that the embedded fragments can raise. -/
inductive PyError
  | keyError (key : String)
  | nameError (missing : String)
  | badSignature
  | jsonDecodeError
  | typeError
  deriving DecidableEq

instance {ε α : Type} [DecidableEq ε] [DecidableEq α] : DecidableEq (Except ε α)
  | Except.error e, Except.error f =>
    if h : e = f then isTrue (by rw [h])
    else isFalse (by intro hh; cases hh; exact h rfl)
  | Except.error _, Except.ok _ => isFalse (by intro h; cases h)
  | Except.ok _, Except.error _ => isFalse (by intro h; cases h)
  | Except.ok a, Except.ok b =>
    if h : a = b then isTrue (by rw [h])
    else isFalse (by intro hh; cases hh; exact h rfl)

/-- Result of a Python call together with the warning lines it printed.
`warned` holds the field names mentioned in printed warning messages. -/
structure PyResult (α : Type) where
  ret : α
  warned : List String
  deriving DecidableEq

/-- Abstract signing backend standing for eth_account / web3:
`addressOf` is the address derived from a private key, `signDefunct` is
`Account.sign_message` on an already EIP-191-encoded message followed by
`.signature.hex()`, and `recoverDefunct` is `Account.recover_message` on an
encoded message and a signature string, which raises (returns `.error`) on
malformed signature input. -/
structure EthCrypto (PrivKey : Type) where
  addressOf : PrivKey → Nat
  signDefunct : String → PrivKey → String
  recoverDefunct : String → String → Except PyError Nat

/-- EIP-191 defunct encoding used by `eth_account.messages.encode_defunct`
with a text payload: a 0x19 byte, the fixed ASCII header, the byte length of
the payload, then the payload. -/
def encode_defunct (text : String) : String :=
  "\x19" ++ "Ethereum Signed Message:\n" ++ toString text.utf8ByteSize ++ text

/-- Embedding of `HealthPass.sign_data`: EIP-191 encode the data, sign it
with the account's private key, return the hex signature string. -/
def sign_data {K : Type} (C : EthCrypto K) (data : String) (signing_account : K) : String :=
  C.signDefunct (encode_defunct data) signing_account

/-- Embedding of `HealthPass.validate_signature`: EIP-191 encode the data,
recover the signing address from the signature, compare with the expected
signer address.  The recovery step raises on malformed signatures and the
Python has no handler, so the error propagates. -/
def validate_signature {K : Type} (C : EthCrypto K) (data signature : String)
    (signer_address : Nat) : Except PyError Bool :=
  match C.recoverDefunct (encode_defunct data) signature with
  | Except.error e => Except.error e
  | Except.ok address => Except.ok (decide (signer_address = address))

/-- Signature produced by the toy backend for message `m` under key `k`. -/
def toySign (m : String) (k : Nat) : String :=
  "sig" ++ toString k ++ ":" ++ m

/-- Recovery for the toy backend: recognises the signatures of keys 0, 1, 2
over the given message and raises `badSignature` on anything else, matching
the library contract that malformed signature input raises. -/
def toyRecover (m s : String) : Except PyError Nat :=
  if s = toySign m 0 then Except.ok 0
  else if s = toySign m 1 then Except.ok 1
  else if s = toySign m 2 then Except.ok 2
  else Except.error PyError.badSignature

/-- A concrete signing backend (private keys are 0, 1, 2, address of key k
is k) realising the library contract on its domain; used to evaluate the
embedded functions on concrete inputs. -/
def toyCrypto : EthCrypto Nat :=
  ⟨fun k => k, toySign, toyRecover⟩

/-- C1: verifying a string against the signature produced by signing it with
the same account, using that account's address as the expected signer,
returns True — given the library contract that address recovery inverts
signing at this message and key. -/
theorem validate_sign_roundtrip {K : Type} (C : EthCrypto K) (s : String) (k : K)
    (hrec : C.recoverDefunct (encode_defunct s) (C.signDefunct (encode_defunct s) k)
      = Except.ok (C.addressOf k)) :
    validate_signature C s (sign_data C s k) (C.addressOf k) = Except.ok true := by
  simp [validate_signature, sign_data, hrec]

/-- Witness for C1 at a concrete input; the message is the empty string,
which the claim singles out as a valid message. -/
theorem validate_sign_roundtrip_witness :
    validate_signature toyCrypto "" (sign_data toyCrypto "" 1) 1 = Except.ok true :=
  validate_sign_roundtrip toyCrypto "" 1 (by decide)

/-- C2 counterexample: on a malformed signature string, `validate_signature`
does not return `false` — the recovery step raises and the exception
propagates out of the function (there is no handler in the Python). -/
theorem validate_signature_malformed_cex :
    validate_signature toyCrypto "hello" "0xdeadbeef" 0
      = Except.error PyError.badSignature := by
  decide

/-- C2 amended: when address recovery succeeds, `validate_signature` returns
the boolean address comparison; when recovery raises (malformed signature
input), the very same exception propagates out of `validate_signature`
instead of a `false` return. -/
theorem validate_signature_error_behavior {K : Type} (C : EthCrypto K)
    (data signature : String) (signer_address : Nat) :
    (∀ e, C.recoverDefunct (encode_defunct data) signature = Except.error e →
      validate_signature C data signature signer_address = Except.error e) ∧
    (∀ a, C.recoverDefunct (encode_defunct data) signature = Except.ok a →
      validate_signature C data signature signer_address
        = Except.ok (decide (signer_address = a))) := by
  constructor
  · intro e he
    simp [validate_signature, he]
  · intro a ha
    simp [validate_signature, ha]

/-- Witness for C2's amended statement at a concrete malformed input. -/
theorem validate_signature_error_behavior_witness :
    validate_signature toyCrypto "hello" "garbage" 7 = Except.error PyError.badSignature :=
  (validate_signature_error_behavior toyCrypto "hello" "garbage" 7).1
    PyError.badSignature (by decide)

/-- Python dict indexing `d[key]` on a string-keyed dict represented as an
association list in insertion order; `none` models a raised KeyError. -/
def dictGet {α : Type} : List (String × α) → String → Option α
  | [], _ => none
  | (k, v) :: rest, key => if k = key then some v else dictGet rest key

/-- Embedding of `HealthPass.validate_data_dict`: iterate the signed dict in
order; for each key, read the plaintext at that key (a missing key raises
KeyError), validate its signature (a raised exception propagates); on the
first failing signature print the warning naming the field and return False;
return True if the loop finishes. -/
def validate_data_dict {K : Type} (C : EthCrypto K) (plaintext_dict : List (String × String))
    (signature_dict : List (String × String)) (signer_address : Nat) :
    Except PyError (PyResult Bool) :=
  match signature_dict with
  | [] => Except.ok ⟨true, []⟩
  | (key, data_signature) :: rest =>
    match dictGet plaintext_dict key with
    | none => Except.error (PyError.keyError key)
    | some plain =>
      match validate_signature C plain data_signature signer_address with
      | Except.error e => Except.error e
      | Except.ok true => validate_data_dict C plaintext_dict rest signer_address
      | Except.ok false => Except.ok ⟨false, [key]⟩

/-- A signed-dict entry whose plaintext is present and whose signature
verifies against the expected address. -/
def fieldOk {K : Type} (C : EthCrypto K) (plaintext_dict : List (String × String))
    (signer_address : Nat) (p : String × String) : Prop :=
  ∃ v, dictGet plaintext_dict p.1 = some v ∧
    validate_signature C v p.2 signer_address = Except.ok true

lemma validate_data_dict_append_ok {K : Type} (C : EthCrypto K)
    (plaintext_dict : List (String × String)) (signer_address : Nat)
    (pre rest : List (String × String))
    (hpre : ∀ p ∈ pre, fieldOk C plaintext_dict signer_address p) :
    validate_data_dict C plaintext_dict (pre ++ rest) signer_address
      = validate_data_dict C plaintext_dict rest signer_address := by
  induction pre with
  | nil => rfl
  | cons p pre ih =>
    obtain ⟨v, hv, hval⟩ := hpre p (by simp)
    obtain ⟨key, s⟩ := p
    have ih2 := ih (fun q hq => hpre q (by simp [hq]))
    simp only [List.cons_append, validate_data_dict, hv, hval]
    exact ih2

/-- C4 counterexample: the value returned on a failing field is the bare
boolean False — identical no matter which field failed — so the failing
field name is not the returned error value (it is only printed). -/
theorem validate_data_dict_return_not_field_cex :
    (validate_data_dict toyCrypto [("a", "x"), ("b", "y")]
        [("a", sign_data toyCrypto "x" 1)] 0).map PyResult.ret = Except.ok false ∧
    (validate_data_dict toyCrypto [("a", "x"), ("b", "y")]
        [("b", sign_data toyCrypto "y" 1)] 0).map PyResult.ret = Except.ok false := by
  constructor <;> rfl

/-- C4 amended: fields are checked in the iteration order of the signed
dict; if every entry verifies the result is True with no warning; on the
first entry whose signature fails verification the loop stops (later
entries, even invalid ones, are never examined), prints a warning naming
that field, and returns the bare value False. -/
theorem validate_data_dict_first_failure {K : Type} (C : EthCrypto K)
    (plaintext_dict : List (String × String)) (signer_address : Nat) :
    (∀ signature_dict, (∀ p ∈ signature_dict, fieldOk C plaintext_dict signer_address p) →
      validate_data_dict C plaintext_dict signature_dict signer_address
        = Except.ok ⟨true, []⟩) ∧
    (∀ pre key s rest, (∀ p ∈ pre, fieldOk C plaintext_dict signer_address p) →
      (∃ v, dictGet plaintext_dict key = some v ∧
        validate_signature C v s signer_address = Except.ok false) →
      validate_data_dict C plaintext_dict (pre ++ (key, s) :: rest) signer_address
        = Except.ok ⟨false, [key]⟩) := by
  constructor
  · intro sd hsd
    have h := validate_data_dict_append_ok C plaintext_dict signer_address sd [] hsd
    simpa using h
  · intro pre key s rest hpre hfail
    rw [validate_data_dict_append_ok C plaintext_dict signer_address pre _ hpre]
    obtain ⟨v, hv, hval⟩ := hfail
    simp only [validate_data_dict, hv, hval]

/-- Witness for C4's amended statement: the second field's signature was made
by key 1 but is checked against address 0, so validation stops there, warns
about that field, and returns False; the junk entry after it is never
examined (it would raise if it were). -/
theorem validate_data_dict_first_failure_witness :
    validate_data_dict toyCrypto [("a", "x"), ("b", "y")]
        ([("a", sign_data toyCrypto "x" 0)] ++ ("b", sign_data toyCrypto "y" 1)
          :: [("zzz", "junk")]) 0
      = Except.ok ⟨false, ["b"]⟩ :=
  (validate_data_dict_first_failure toyCrypto [("a", "x"), ("b", "y")] 0).2
    [("a", sign_data toyCrypto "x" 0)] "b" (sign_data toyCrypto "y" 1) [("zzz", "junk")]
    (by
      intro p hp
      simp only [List.mem_singleton] at hp
      subst hp
      exact ⟨"x", by decide, by decide⟩)
    ⟨"y", by decide, by decide⟩

/-- C5 counterexample: a signed-dict key absent from the plaintext dict makes
`validate_data_dict` raise the untyped built-in KeyError (the exception
propagates to the caller); no typed MissingFieldError result is produced. -/
theorem validate_data_dict_keyerror_cex :
    validate_data_dict toyCrypto [("a", "x")] [("zzz", "s")] 0
      = Except.error (PyError.keyError "zzz") := by
  decide

/-- C5 amended: when the signed dict contains a key absent from the
plaintext dict (and the entries before it verify), `validate_data_dict`
raises KeyError for that key — the plain dict-indexing exception, not a
typed MissingFieldError value. -/
theorem validate_data_dict_missing_key_raises {K : Type} (C : EthCrypto K)
    (plaintext_dict : List (String × String)) (signer_address : Nat)
    (pre : List (String × String)) (key s : String) (rest : List (String × String))
    (hpre : ∀ p ∈ pre, fieldOk C plaintext_dict signer_address p)
    (hkey : dictGet plaintext_dict key = none) :
    validate_data_dict C plaintext_dict (pre ++ (key, s) :: rest) signer_address
      = Except.error (PyError.keyError key) := by
  rw [validate_data_dict_append_ok C plaintext_dict signer_address pre _ hpre]
  simp only [validate_data_dict, hkey]

/-- Witness for C5's amended statement at a concrete input. -/
theorem validate_data_dict_missing_key_raises_witness :
    validate_data_dict toyCrypto [("a", "x")]
        ([("a", sign_data toyCrypto "x" 0)] ++ ("nope", "s") :: []) 0
      = Except.error (PyError.keyError "nope") :=
  validate_data_dict_missing_key_raises toyCrypto [("a", "x")] 0
    [("a", sign_data toyCrypto "x" 0)] "nope" "s" []
    (by
      intro p hp
      simp only [List.mem_singleton] at hp
      subst hp
      exact ⟨"x", by decide, by decide⟩)
    (by decide)

/-- C9: an empty signed dict validates as True against any plaintext dict
and any expected signer address — the loop body never runs. -/
theorem validate_data_dict_empty {K : Type} (C : EthCrypto K)
    (plaintext_dict : List (String × String)) (signer_address : Nat) :
    validate_data_dict C plaintext_dict [] signer_address = Except.ok ⟨true, []⟩ :=
  rfl

/-- Serialization of one dict entry as json.dumps writes it:
a quoted key, a colon and a space, a quoted value. -/
def jdEntry (p : String × String) : List Char :=
  ('"' :: p.1.data) ++ ('"' :: ':' :: ' ' :: '"' :: p.2.data) ++ ['"']

/-- Serialization of the entries of a string-to-string dict in insertion
order, separated by a comma and a space, as json.dumps writes them. -/
def jdEntries : List (String × String) → List Char
  | [] => []
  | [p] => jdEntry p
  | p :: q :: tail => jdEntry p ++ ',' :: ' ' :: jdEntries (q :: tail)

/-- Model of `json.dumps` on a string-keyed, string-valued dict whose keys
and values need no escaping (the signed field maps built by this program
hold hex signature strings): the entries in insertion order between braces,
with the default ", " and ": " separators. -/
def json_dumps (d : List (String × String)) : String :=
  String.mk ('\x7b' :: (jdEntries d ++ ['\x7d']))

/-- A string that json.dumps writes verbatim (no quote, no backslash, no
control character), so the canonical serializer above is faithful on it. -/
def jsonSimple (s : String) : Prop :=
  ∀ c ∈ s.data, c ≠ '"' ∧ c ≠ '\\' ∧ 32 ≤ c.toNat

instance (s : String) : Decidable (jsonSimple s) := by
  unfold jsonSimple
  infer_instance

/-- Consume characters up to the closing quote of a JSON string literal
containing no escapes; returns the body and the rest of the input. -/
def takeStr : List Char → Option (List Char × List Char)
  | [] => none
  | c :: rest =>
    if c = '"' then some ([], rest)
    else
      match takeStr rest with
      | some (s, r) => some (c :: s, r)
      | none => none

/-- Parse one key-value entry of the canonical serialization; returns the
key, the value, and the rest of the input. -/
def parseEntry (cs : List Char) : Option (String × String × List Char) :=
  match cs with
  | '"' :: r0 =>
    match takeStr r0 with
    | some (k, ':' :: ' ' :: '"' :: r2) =>
      match takeStr r2 with
      | some (v, r3) => some (String.mk k, String.mk v, r3)
      | none => none
    | _ => none
  | _ => none

/-- Parse a non-empty entry sequence terminated by the closing brace; the
fuel bounds the number of entries. -/
def parseEntries : Nat → List Char → Option (List (String × String))
  | 0, _ => none
  | fuel + 1, cs =>
    match parseEntry cs with
    | none => none
    | some (k, v, r3) =>
      match r3 with
      | ['\x7d'] => some [(k, v)]
      | ',' :: ' ' :: r4 =>
        match parseEntries fuel r4 with
        | some entries => some ((k, v) :: entries)
        | none => none
      | _ => none

/-- Model of `json.loads` restricted to the canonical object-of-strings
encoding produced by `json_dumps`; `none` models a raised JSONDecodeError. -/
def json_loads (s : String) : Option (List (String × String)) :=
  match s.data with
  | ['\x7b', '\x7d'] => some []
  | '\x7b' :: rest => parseEntries rest.length rest
  | _ => none

lemma takeStr_append (l : List Char) (h : ∀ c ∈ l, c ≠ '"') (rest : List Char) :
    takeStr (l ++ '"' :: rest) = some (l, rest) := by
  induction l with
  | nil => simp [takeStr]
  | cons c t ih =>
    have hc : c ≠ '"' := h c (by simp)
    have ht := ih (fun x hx => h x (by simp [hx]))
    simp [takeStr, hc, ht]

lemma parseEntry_encode (p : String × String) (rest : List Char)
    (hk : ∀ c ∈ p.1.data, c ≠ '"') (hv : ∀ c ∈ p.2.data, c ≠ '"') :
    parseEntry (jdEntry p ++ rest) = some (p.1, p.2, rest) := by
  have e : jdEntry p ++ rest
      = '"' :: (p.1.data ++ '"' :: (':' :: ' ' :: '"' :: (p.2.data ++ '"' :: rest))) := by
    simp [jdEntry]
  rw [e]
  simp [parseEntry, takeStr_append p.1.data hk, takeStr_append p.2.data hv]

lemma jdEntries_length_ge (d : List (String × String)) : d.length ≤ (jdEntries d).length := by
  induction d with
  | nil => simp [jdEntries]
  | cons p tail ih =>
    cases tail with
    | nil => simp [jdEntries, jdEntry]
    | cons q ttail =>
      simp only [jdEntries, jdEntry, List.length_append, List.length_cons] at ih ⊢
      omega

lemma parseEntries_encode (d : List (String × String)) :
    ∀ fuel, d ≠ [] → (∀ p ∈ d, jsonSimple p.1 ∧ jsonSimple p.2) → d.length ≤ fuel →
      parseEntries fuel (jdEntries d ++ ['\x7d']) = some d := by
  induction d with
  | nil =>
    intro fuel hne _ _
    exact absurd rfl hne
  | cons p tail ih =>
    intro fuel _ hs hfuel
    obtain ⟨hk, hv⟩ := hs p (by simp)
    have hk1 : ∀ c ∈ p.1.data, c ≠ '"' := fun c hc => (hk c hc).1
    have hv1 : ∀ c ∈ p.2.data, c ≠ '"' := fun c hc => (hv c hc).1
    cases fuel with
    | zero => simp at hfuel
    | succ f =>
      cases tail with
      | nil =>
        have e : jdEntries [p] ++ ['\x7d'] = jdEntry p ++ ['\x7d'] := by
          simp [jdEntries]
        rw [e]
        simp [parseEntries, parseEntry_encode p ['\x7d'] hk1 hv1]
      | cons q ttail =>
        have e : jdEntries (p :: q :: ttail) ++ ['\x7d']
            = jdEntry p ++ (',' :: ' ' :: (jdEntries (q :: ttail) ++ ['\x7d'])) := by
          simp [jdEntries]
        have hih := ih f (by simp) (fun x hx => hs x (by simp [hx])) (by simpa using hfuel)
        rw [e]
        simp [parseEntries,
          parseEntry_encode p (',' :: ' ' :: (jdEntries (q :: ttail) ++ ['\x7d'])) hk1 hv1,
          hih]

lemma json_loads_dumps (d : List (String × String))
    (hs : ∀ p ∈ d, jsonSimple p.1 ∧ jsonSimple p.2) :
    json_loads (json_dumps d) = some d := by
  cases d with
  | nil => rfl
  | cons p tail =>
    have hparse := parseEntries_encode (p :: tail) (jdEntries (p :: tail) ++ ['\x7d']).length
      (by simp) hs
      (by
        have h1 := jdEntries_length_ge (p :: tail)
        simp only [List.length_append, List.length_cons, List.length_nil] at h1 ⊢
        omega)
    obtain ⟨X, hX⟩ : ∃ X, jdEntries (p :: tail) ++ ['\x7d'] = '"' :: X := by
      cases tail with
      | nil =>
        refine ⟨p.1.data ++ '"' :: ':' :: ' ' :: '"' :: (p.2.data ++ ['"', '\x7d']), ?_⟩
        simp [jdEntries, jdEntry]
      | cons q ttail =>
        refine ⟨p.1.data ++ '"' :: ':' :: ' ' :: '"' ::
          (p.2.data ++ '"' :: ',' :: ' ' :: (jdEntries (q :: ttail) ++ ['\x7d'])), ?_⟩
        simp [jdEntries, jdEntry]
    simp only [json_dumps, json_loads]
    rw [hX] at hparse ⊢
    simpa using hparse

/-- A positional value in a tuple returned by the contract's view
functions: a string member, an address member, a bool member, or a list of
credential hashes. -/
inductive LVal
  | str (s : String)
  | addr (a : Nat)
  | flag (b : Bool)
  | hashes (hs : List Nat)
  deriving DecidableEq

/-- A value of the decoded passport/credential dict: either a raw tuple
member or the dict obtained by re-parsing the embedded JSON payload. -/
inductive PassVal
  | raw (v : LVal)
  | json (m : List (String × String))
  deriving DecidableEq

/-- Python dict assignment `d[key] = v`: replace in place if the key is
present, append otherwise. -/
def dictSet {α : Type} : List (String × α) → String → α → List (String × α)
  | [], key, v => [(key, v)]
  | (k, w) :: rest, key, v =>
    if k = key then (k, v) :: rest else (k, w) :: dictSet rest key v

/-- The key list of the HealthPassport struct, in declared order. -/
def HEALTH_PASSPORT_STRUCT : List String :=
  ["healthJson", "issuerAddress", "allowOnlySigned", "credentialHashes", "isActive"]

/-- The key list of the Credential struct, in declared order. -/
def CREDENTIAL_STRUCT : List String :=
  ["credentialJson", "issuerAddress", "passportAddress", "isValid"]

/-- Embedding of `HealthPass.get_health_passport` on the positional tuple the
contract call returned: zip the struct key list with the tuple into a dict,
then replace the healthJson entry by the parsed payload.  Reading the
healthJson entry raises KeyError when the zipped dict lacks it, and parsing
raises when the payload is not a string or not valid JSON. -/
def get_health_passport (health_passport_values : List LVal) :
    Except PyError (List (String × PassVal)) :=
  let d := (List.zip HEALTH_PASSPORT_STRUCT health_passport_values).map
    (fun p => (p.1, PassVal.raw p.2))
  match dictGet d "healthJson" with
  | none => Except.error (PyError.keyError "healthJson")
  | some (PassVal.raw (LVal.str s)) =>
    match json_loads s with
    | some m => Except.ok (dictSet d "healthJson" (PassVal.json m))
    | none => Except.error PyError.jsonDecodeError
  | some _ => Except.error PyError.typeError

/-- Embedding of `HealthPass.get_credential`, the analogous decoder for the
Credential struct. -/
def get_credential (credential_values : List LVal) :
    Except PyError (List (String × PassVal)) :=
  let d := (List.zip CREDENTIAL_STRUCT credential_values).map
    (fun p => (p.1, PassVal.raw p.2))
  match dictGet d "credentialJson" with
  | none => Except.error (PyError.keyError "credentialJson")
  | some (PassVal.raw (LVal.str s)) =>
    match json_loads s with
    | some m => Except.ok (dictSet d "credentialJson" (PassVal.json m))
    | none => Except.error PyError.jsonDecodeError
  | some _ => Except.error PyError.typeError

/-- C8: a full positional tuple is decoded by the fixed field orders
[healthJson, issuerAddress, allowOnlySigned, credentialHashes, isActive]
and [credentialJson, issuerAddress, passportAddress, isValid], and the
embedded payload is parsed back into the field-name-to-signature map it
serialized. -/
theorem get_decode_fixed_order (m mc : List (String × String)) (ia pa : Nat)
    (aos act iv : Bool) (hs : List Nat)
    (hm : ∀ p ∈ m, jsonSimple p.1 ∧ jsonSimple p.2)
    (hmc : ∀ p ∈ mc, jsonSimple p.1 ∧ jsonSimple p.2) :
    get_health_passport
        [LVal.str (json_dumps m), LVal.addr ia, LVal.flag aos, LVal.hashes hs, LVal.flag act]
      = Except.ok [("healthJson", PassVal.json m),
          ("issuerAddress", PassVal.raw (LVal.addr ia)),
          ("allowOnlySigned", PassVal.raw (LVal.flag aos)),
          ("credentialHashes", PassVal.raw (LVal.hashes hs)),
          ("isActive", PassVal.raw (LVal.flag act))] ∧
    get_credential [LVal.str (json_dumps mc), LVal.addr ia, LVal.addr pa, LVal.flag iv]
      = Except.ok [("credentialJson", PassVal.json mc),
          ("issuerAddress", PassVal.raw (LVal.addr ia)),
          ("passportAddress", PassVal.raw (LVal.addr pa)),
          ("isValid", PassVal.raw (LVal.flag iv))] := by
  constructor
  · simp [get_health_passport, HEALTH_PASSPORT_STRUCT, dictGet, dictSet,
      json_loads_dumps m hm]
  · simp [get_credential, CREDENTIAL_STRUCT, dictGet, dictSet,
      json_loads_dumps mc hmc]

/-- Witness for C8 at concrete inputs. -/
theorem get_decode_fixed_order_witness :
    get_health_passport
        [LVal.str (json_dumps [("a", "1"), ("b", "2")]), LVal.addr 7, LVal.flag true,
          LVal.hashes [3, 4], LVal.flag false]
      = Except.ok [("healthJson", PassVal.json [("a", "1"), ("b", "2")]),
          ("issuerAddress", PassVal.raw (LVal.addr 7)),
          ("allowOnlySigned", PassVal.raw (LVal.flag true)),
          ("credentialHashes", PassVal.raw (LVal.hashes [3, 4])),
          ("isActive", PassVal.raw (LVal.flag false))] :=
  (get_decode_fixed_order [("a", "1"), ("b", "2")] [("c", "3")] 7 9 true false true [3, 4]
    (by decide) (by decide)).1

/-- C10 counterexample: an empty positional tuple does make the decoders
fail — the zipped dict is empty, so the unconditional healthJson /
credentialJson re-parse line raises KeyError. -/
theorem get_decode_empty_tuple_cex :
    get_health_passport [] = Except.error (PyError.keyError "healthJson") ∧
    get_credential [] = Except.error (PyError.keyError "credentialJson") := by
  constructor <;> rfl

/-- C10 amended: for a positional tuple that is non-empty but shorter than
the struct key list (and whose first member is a well-formed payload), the
zip silently truncates and the decoders succeed with a record that simply
lacks the trailing keys; only the zero-length tuple fails, with KeyError on
the payload key. -/
theorem get_decode_truncated (m : List (String × String))
    (vp vc : List LVal)
    (hm : ∀ p ∈ m, jsonSimple p.1 ∧ jsonSimple p.2)
    (hvp : vp.length < 4) (hvc : vc.length < 3) :
    get_health_passport (LVal.str (json_dumps m) :: vp)
      = Except.ok (("healthJson", PassVal.json m) ::
          (List.zip ["issuerAddress", "allowOnlySigned", "credentialHashes", "isActive"] vp).map
            (fun p => (p.1, PassVal.raw p.2))) ∧
    get_credential (LVal.str (json_dumps m) :: vc)
      = Except.ok (("credentialJson", PassVal.json m) ::
          (List.zip ["issuerAddress", "passportAddress", "isValid"] vc).map
            (fun p => (p.1, PassVal.raw p.2))) := by
  constructor
  · simp [get_health_passport, HEALTH_PASSPORT_STRUCT, dictGet, dictSet, List.zip,
      json_loads_dumps m hm]
  · simp [get_credential, CREDENTIAL_STRUCT, dictGet, dictSet, List.zip,
      json_loads_dumps m hm]

/-- Witness for C10's amended statement: a three-element passport tuple and a
two-element credential tuple decode to records missing the trailing keys. -/
theorem get_decode_truncated_witness :
    get_health_passport [LVal.str (json_dumps [("a", "1")]), LVal.addr 7, LVal.flag true]
      = Except.ok [("healthJson", PassVal.json [("a", "1")]),
          ("issuerAddress", PassVal.raw (LVal.addr 7)),
          ("allowOnlySigned", PassVal.raw (LVal.flag true))] ∧
    get_credential [LVal.str (json_dumps [("a", "1")]), LVal.addr 7]
      = Except.ok [("credentialJson", PassVal.json [("a", "1")]),
          ("issuerAddress", PassVal.raw (LVal.addr 7))] := by
  have h := get_decode_truncated [("a", "1")] [LVal.addr 7, LVal.flag true] [LVal.addr 7]
    (by decide) (by decide) (by decide)
  exact ⟨h.1, h.2⟩

/-- The three transaction inputs of the createHealthPassport contract
write: the JSON payload, the holder address, and the allowOnlySigned flag. -/
structure ContractCall where
  jsonPayload : String
  holderAddress : Nat
  allowOnlySigned : Bool
  deriving DecidableEq

/-- The name `allow_only_signed` is referenced at the createHealthPassport
call site (HealthPass.py line 207) but is never bound anywhere in the
module, so evaluating it at call time raises NameError. -/
def allow_only_signed : Option Bool := none

/-- Embedding of `HealthPass.create_health_passport`: sign every field value
with the issuer account, serialize the signed dict to JSON, then build the
createHealthPassport transaction from the payload, the passport account's
address, and the value of the free variable `allow_only_signed` — whose
lookup fails, so the function raises instead of submitting.  Note the Python
function takes no allowOnlySigned parameter. -/
def create_health_passport {K : Type} (C : EthCrypto K)
    (health_dict : List (String × String)) (issuer_account : K)
    (passport_address : Nat) : Except PyError ContractCall :=
  let hashed_dict := health_dict.map (fun p => (p.1, sign_data C p.2 issuer_account))
  let json_string := json_dumps hashed_dict
  match allow_only_signed with
  | some b => Except.ok ⟨json_string, passport_address, b⟩
  | none => Except.error (PyError.nameError "allow_only_signed")

/-- C3: every call of create_health_passport raises NameError on the unbound
name allow_only_signed before any transaction is submitted; in particular no
caller-supplied allowOnlySigned flag exists (the function has no such
parameter) and no three-input write is ever produced. -/
theorem create_health_passport_name_error {K : Type} (C : EthCrypto K)
    (health_dict : List (String × String)) (issuer_account : K)
    (passport_address : Nat) :
    create_health_passport C health_dict issuer_account passport_address
      = Except.error (PyError.nameError "allow_only_signed") :=
  rfl

/-- Evaluation of C3's failing input: the demo script's own call with the
John Smith health dict raises NameError. -/
theorem create_health_passport_demo_input :
    create_health_passport toyCrypto
        [("First Name", "John"), ("Last Name", "Smith"), ("Date of Birth", "10/5/1970")]
        1 2
      = Except.error (PyError.nameError "allow_only_signed") :=
  rfl

/-- Events of the top-level `__main__` workflow that matter to fund
recovery: the 0.05-Eth seeding transfer from the owner to a generated
issuer account, the end of the try-block body (with a flag recording
whether it ended by a caught exception), and the balance-recovery call. -/
inductive WfEvent
  | seedTransfer
  | bodyDone (failed : Bool)
  | recoverBalance
  deriving DecidableEq

/-- The bodyDone event recording how the try-block body ended. -/
def bodyDoneOf (body : Except String Unit) : WfEvent :=
  match body with
  | Except.ok _ => WfEvent.bodyDone false
  | Except.error _ => WfEvent.bodyDone true

/-- Embedding of the `__main__` control flow around fund recovery: if no
issuer private key is configured, a fresh issuer account is seeded with
0.05 Eth and recover_eth is set; the body runs inside try/except (a raised
exception is caught and printed, so both outcomes fall through); afterwards
the issuer balance is sent back to the owner exactly when recover_eth was
set. -/
def main_workflow (issuer_private_key : String) (body : Except String Unit) :
    List WfEvent :=
  let seeding := if issuer_private_key = "" then ([WfEvent.seedTransfer], true)
    else ([], false)
  seeding.1 ++ bodyDoneOf body ::
    (if seeding.2 then [WfEvent.recoverBalance] else [])

/-- C6: in every run, the recovery transfer happens as many times as the
seeding transfer happened (so exactly once if funds were advanced and never
otherwise), the seeding transfer happens at most once, and whenever recovery
happens the run is exactly seed, then body completion (success or caught
failure), then one recovery. -/
theorem main_workflow_recover_iff_seed (issuer_private_key : String)
    (body : Except String Unit) :
    (main_workflow issuer_private_key body).count WfEvent.recoverBalance
        = (main_workflow issuer_private_key body).count WfEvent.seedTransfer ∧
    (main_workflow issuer_private_key body).count WfEvent.seedTransfer ≤ 1 ∧
    (WfEvent.recoverBalance ∈ main_workflow issuer_private_key body →
      main_workflow issuer_private_key body
        = [WfEvent.seedTransfer, bodyDoneOf body, WfEvent.recoverBalance]) := by
  by_cases hk : issuer_private_key = "" <;> cases body <;>
    simp [main_workflow, bodyDoneOf, hk, List.count_cons]

/-- Witness for C6: a failing run with a generated issuer key seeds once and
recovers once, after the body's caught failure. -/
theorem main_workflow_recover_iff_seed_witness :
    (main_workflow "" (Except.error "boom")).count WfEvent.recoverBalance
        = (main_workflow "" (Except.error "boom")).count WfEvent.seedTransfer ∧
    (main_workflow "" (Except.error "boom")).count WfEvent.seedTransfer ≤ 1 ∧
    (WfEvent.recoverBalance ∈ main_workflow "" (Except.error "boom") →
      main_workflow "" (Except.error "boom")
        = [WfEvent.seedTransfer, bodyDoneOf (Except.error "boom"),
            WfEvent.recoverBalance]) :=
  main_workflow_recover_iff_seed "" (Except.error "boom")

/-- Wei per Eth, the conversion factor of fromWei / toWei. -/
def weiPerEth : ℚ := 10 ^ 18

/-- web3's fromWei(x, ether): exact division into the display unit. -/
def fromWei (wei : Int) : ℚ := (wei : ℚ) / weiPerEth

/-- web3's toWei(x, ether): back into wei (exact on every fromWei image). -/
def toWei (amount : ℚ) : Int := Int.floor (amount * weiPerEth)

lemma toWei_fromWei (wei : Int) : toWei (fromWei wei) = wei := by
  have h : ((wei : ℚ) / weiPerEth) * weiPerEth = (wei : ℚ) := by
    rw [div_mul_cancel₀]
    simp [weiPerEth]
  rw [toWei, fromWei, h]
  exact Int.floor_intCast wei

/-- The transaction dict built by `HealthPass.transfer_eth`: value converted
to wei, chainId 3 (Ropsten), the sender's nonce, and optional gas price and
gas amount. -/
structure EthTransaction where
  fromAddr : Nat
  toAddr : Nat
  valueWei : Int
  chainId : Nat
  nonce : Nat
  gasPrice : Option Nat
  gasAmount : Option Nat
  deriving DecidableEq

/-- Embedding of `HealthPass.transfer_eth`: build the transaction from an
ether amount and send it. -/
def transfer_eth (from_address to_address : Nat) (amount : ℚ) (nonce : Nat)
    (gas_price gas_amount : Option Nat) : EthTransaction :=
  ⟨from_address, to_address, toWei amount, 3, nonce, gas_price, gas_amount⟩

/-- Outcome of `HealthPass.send_account_balance`: either an early return
because the balance is zero, or the transfer that was sent. -/
inductive SendOutcome
  | noFunds
  | sent (tx : EthTransaction)
  deriving DecidableEq

/-- Embedding of `HealthPass.send_account_balance`: read the source
balance; return without sending if it is zero; otherwise generate a gas
price and transfer the balance minus the fixed 21000-gas transfer fee at
that price, with the gas price and gas amount pinned on the transaction. -/
def send_account_balance (account_balance : Nat) (gas_price : Nat)
    (from_address to_address nonce : Nat) : SendOutcome :=
  if account_balance = 0 then SendOutcome.noFunds
  else
    let balance_minus_gas := fromWei ((account_balance : Int) - 21000 * (gas_price : Int))
    SendOutcome.sent (transfer_eth from_address to_address balance_minus_gas nonce
      (some gas_price) (some 21000))

/-- C7: on a zero balance the recovery transfer returns without sending and
without error; on a non-zero balance it sends exactly the balance minus
21000 gas units times the generated gas price back to the destination. -/
theorem send_account_balance_spec (account_balance gas_price from_address
    to_address nonce : Nat) :
    (account_balance = 0 →
      send_account_balance account_balance gas_price from_address to_address nonce
        = SendOutcome.noFunds) ∧
    (account_balance ≠ 0 →
      send_account_balance account_balance gas_price from_address to_address nonce
        = SendOutcome.sent ⟨from_address, to_address,
            (account_balance : Int) - 21000 * (gas_price : Int), 3, nonce,
            some gas_price, some 21000⟩) := by
  constructor
  · intro h
    simp [send_account_balance, h]
  · intro h
    simp [send_account_balance, h, transfer_eth, toWei_fromWei]

/-- Witness for C7: a 50000-wei balance at gas price 1 sends 29000 wei. -/
theorem send_account_balance_spec_witness :
    send_account_balance 50000 1 5 6 0
      = SendOutcome.sent ⟨5, 6, (50000 : Int) - 21000 * ((1 : Nat) : Int), 3, 0,
          some 1, some 21000⟩ :=
  (send_account_balance_spec 50000 1 5 6 0).2 (by decide)

end HealthPass

